import Mathlib

/-!
Shallow embedding of `awx/ui/client/src/dashboard/hosts/dashboard-hosts-list.controller.js`
(the dashboard host-list controller), together with theorems settling the
specification claims about it.

The controller owns an in-memory snapshot of a remote host collection
(`$scope.hosts`), derives per-item display fields on refresh, tracks the
row under edit across navigation events, and issues single-field status
mutations back to the server.

Modelling conventions:
* JavaScript objects become Lean structures; a property that can be absent
  (created by assignment, removed by `delete`) is an `Option` field.
* The job-status metadata attached by the external `SetStatus` collaborator
  is opaque to this controller, so items are parameterized by a type `σ` of
  status metadata and the resolver is an arbitrary function `Item σ → σ`.
* A JavaScript statement that can throw (here: the property write
  `$scope.hosts[index].enabled = v` when `index` is `-1`) is embedded in
  `Except String`, with `.error` for the thrown `TypeError`.
* Promise plumbing (`.then` with only a success callback) is embedded by
  returning the request issued together with a settle continuation that
  receives the snapshot current at resolution time and the outcome.
-/

/-- The nested `summary_fields.inventory` reference carried by each host. -/
structure Inventory where
  id : Int
  name : String
deriving DecidableEq, Repr

/-- The `summary_fields` object of a host record. -/
structure SummaryFields where
  inventory : Inventory
deriving DecidableEq, Repr

/-- A host record as held in `$scope.hosts`.  `inventory_name` and
`inventory_id` are denormalized display fields created by assignment in the
`PostRefresh` handler, hence `Option`; `status` is the opaque job-status
metadata attached by the external status resolver, also created by
assignment, hence `Option σ`. -/
structure Item (σ : Type) where
  id : Int
  enabled : Bool
  summary_fields : SummaryFields
  inventory_name : Option String := none
  inventory_id : Option Int := none
  status : Option σ := none
deriving DecidableEq, Repr

/-- Modelled from the spec: the external `SetStatus` collaborator
(`StatusResolver.apply`) is not under the sources in scope; per the spec it
"mutates/attaches job-status display metadata" on the item.  It is embedded
as writing only the `status` field, with the metadata computed by an
arbitrary resolver function `r`. -/
def SetStatus (r : Item σ → σ) (host : Item σ) : Item σ :=
  { host with status := some (r host) }

/-- `setJobStatus` from the controller: `_.forEach($scope.hosts, ...)`
applying `SetStatus` to every host of the snapshot. -/
def setJobStatus (r : Item σ → σ) (hosts : List (Item σ)) : List (Item σ) :=
  hosts.map (SetStatus r)

/-- The index of the first element satisfying the predicate, if any. -/
def findIndexOpt (p : α → Bool) : List α → Option Nat
  | [] => none
  | a :: t => if p a then some 0 else (findIndexOpt p t).map (· + 1)

/-- lodash `_.findIndex(array, predicate)`: the index of the first element
satisfying the predicate, or `-1` when none does. -/
def lodashFindIndex (p : α → Bool) (l : List α) : Int :=
  match findIndexOpt p l with
  | some n => (n : Int)
  | none => -1

/-- The JavaScript statement `hosts[index].enabled = v`: succeeds exactly
when `index` is a valid array index, and throws a `TypeError` otherwise
(indexing at `-1` yields `undefined`, and assigning a property of
`undefined` throws). -/
def jsSetEnabledAt (hosts : List (Item σ)) (index : Int) (v : Bool) :
    Except String (List (Item σ)) :=
  if h : 0 ≤ index ∧ index.toNat < hosts.length then
    Except.ok (hosts.set index.toNat
      { hosts.get ⟨index.toNat, h.2⟩ with enabled := v })
  else
    Except.error "TypeError: cannot set property of undefined"

/-- The payload `res.data` of a resolved `setHostStatus` mutation. -/
structure ToggleResponseData where
  id : Int
  enabled : Bool
deriving DecidableEq, Repr

/-- The success callback of `toggleHostEnabled`, applied to the snapshot
current at resolution time: find the index of the host whose `id` matches
the response and write the server-returned `enabled` there. -/
def toggleSuccessHandler (hosts : List (Item σ)) (res : ToggleResponseData) :
    Except String (List (Item σ)) :=
  let index := lodashFindIndex (fun o => o.id == res.id) hosts
  jsSetEnabledAt hosts index res.enabled

/-- A request issued to `DashboardHostService.setHostStatus`. -/
structure MutationRequest where
  hostId : Int
  desiredEnabled : Bool
deriving DecidableEq, Repr

/-- `$scope.toggleHostEnabled(host)`: issues exactly one `setHostStatus`
request carrying the negation of the host's current `enabled` value, and
registers only a success continuation (`.then` with a single argument), so
a rejected promise runs no callback and the snapshot passes through
untouched.  The continuation receives the snapshot current at resolution
time. -/
def toggleHostEnabled (host : Item σ) :
    List MutationRequest ×
      (List (Item σ) → Except String ToggleResponseData →
        Except String (List (Item σ))) :=
  ([⟨host.id, !host.enabled⟩],
    fun currentHosts outcome =>
      match outcome with
      | Except.error _ => Except.ok currentHosts
      | Except.ok res => toggleSuccessHandler currentHosts res)

/-- The per-item body of the `PostRefresh` handler's `_.map`: write the
denormalized `inventory_name` / `inventory_id` from
`summary_fields.inventory` and return the item. -/
def deriveInventoryFields (host : Item σ) : Item σ :=
  { host with
    inventory_name := some host.summary_fields.inventory.name
    inventory_id := some host.summary_fields.inventory.id }

/-- The `$scope.$on('PostRefresh', ...)` handler: re-derive the inventory
display fields on every item of the snapshot, then run `setJobStatus`. -/
def postRefreshHandler (r : Item σ → σ) (hosts : List (Item σ)) :
    List (Item σ) :=
  setJobStatus r (hosts.map deriveInventoryFields)

/-- The edit-tracking portion of the scope: `$scope.rowBeingEdited` and
`$scope.listBeingEdited`, both created by assignment and removed by
`delete`, hence `Option`. -/
structure EditTracking where
  rowBeingEdited : Option Int
  listBeingEdited : Option String
deriving DecidableEq, Repr

/-- The destination navigation state of a `$stateChangeSuccess` event. -/
structure NavState where
  name : String
deriving DecidableEq, Repr

/-- The destination navigation parameters of a `$stateChangeSuccess`
event. -/
structure NavParams where
  id : Int
deriving DecidableEq, Repr

/-- The `$stateChangeSuccess` listener registered through
`cleanUpStateChangeListener`: entering `dashboardHosts.edit` sets both
edit-tracking properties; entering any other state deletes both. -/
def stateChangeHandler (s : EditTracking) (toState : NavState)
    (toParams : NavParams) : EditTracking :=
  if toState.name == "dashboardHosts.edit" then
    { s with rowBeingEdited := some toParams.id,
             listBeingEdited := some "hosts" }
  else
    { s with rowBeingEdited := none, listBeingEdited := none }

/-- The edit-tracking step of `init`: on a fresh scope (both properties
absent), if the current navigation state is already `dashboardHosts.edit`
then set both properties from the current navigation parameters; the `if`
has no `else`, so otherwise the fresh scope is left as is. -/
def initEditTracking (currentName : String) (currentParams : NavParams) :
    EditTracking :=
  let fresh : EditTracking := ⟨none, none⟩
  if currentName == "dashboardHosts.edit" then
    { fresh with rowBeingEdited := some currentParams.id,
                 listBeingEdited := some "hosts" }
  else
    fresh

/-- An event observed by the controller's navigation subscription
machinery: a `$stateChangeSuccess` broadcast, or the `$destroy` of the
owning scope. -/
inductive NavEvent where
  | stateChange (toState : NavState) (toParams : NavParams)
  | destroy
deriving DecidableEq, Repr

/-- Subscription state of the `$stateChangeSuccess` listener together with
the edit-tracking scope properties it writes. -/
structure ListenerState where
  subscribed : Bool
  edit : EditTracking
deriving DecidableEq, Repr

/-- One event step: a `$stateChangeSuccess` runs `stateChangeHandler` only
while the listener is subscribed; `$destroy` runs
`cleanUpStateChangeListener()`, deregistering the listener. -/
def stepEvent (s : ListenerState) : NavEvent → ListenerState
  | NavEvent.stateChange t p =>
      if s.subscribed then { s with edit := stateChangeHandler s.edit t p }
      else s
  | NavEvent.destroy => { s with subscribed := false }

/-- Process a sequence of events. -/
def runEvents (s : ListenerState) (es : List NavEvent) : ListenerState :=
  es.foldl stepEvent s

/-- A navigation request issued through `$state.go`. -/
structure NavRequest where
  stateName : String
  id : Int
deriving DecidableEq, Repr

/-- The local controller state visible on `$scope` that the claims talk
about: the collection snapshot, the edit-tracking marker, the pagination
fields the controller itself writes, and the search-active flag. -/
structure ControllerScope (σ : Type) where
  hosts : List (Item σ)
  host_total_rows : Nat
  hostPageSize : Nat
  host_active_search : Bool
  hostLoading : Bool
  edit : EditTracking
deriving DecidableEq, Repr

/-- `$scope.editHost(id)`: the body is the single statement
`$state.go('dashboardHosts.edit', {id: id})`, so the scope is returned
untouched together with the navigation request. -/
def editHost (s : ControllerScope σ) (id : Int) :
    ControllerScope σ × NavRequest :=
  (s, ⟨"dashboardHosts.edit", id⟩)

/-- The pre-fetched first page resolved into the controller as `hosts`. -/
structure Page (σ : Type) where
  results : List (Item σ)
  count : Nat
  next : Option String
  previous : Option String

/-- The arguments the controller passes to the external `PageRangeSetup`
collaborator. -/
structure PageRangeArgs where
  count : Nat
  next : Option String
  previous : Option String

/-- The `init` function of the controller, restricted to the state it
writes and the arguments it hands to `PageRangeSetup`: install
`hosts.results` as the snapshot (running `setJobStatus` over it), set
`host_total_rows` from `hosts.results.length`, seed search inactive and
page size 10, pass `count`/`next`/`previous` to `PageRangeSetup`, and
recover the edit marker when the current navigation state is already the
edit state. -/
def init (r : Item σ → σ) (page : Page σ) (currentName : String)
    (currentParams : NavParams) : ControllerScope σ × PageRangeArgs :=
  ({ hosts := setJobStatus r page.results
     host_total_rows := page.results.length
     hostPageSize := 10
     host_active_search := false
     hostLoading := false
     edit := initEditTracking currentName currentParams },
   ⟨page.count, page.next, page.previous⟩)

/-- A concrete host record (the spec's example host), used to evaluate the
embedding on closed inputs. -/
def item1 : Item Unit :=
  { id := 1, enabled := true, summary_fields := ⟨⟨9, "Prod"⟩⟩ }

/-- A second concrete host record with a distinct identifier. -/
def item2 : Item Unit :=
  { id := 2, enabled := false, summary_fields := ⟨⟨7, "Dev"⟩⟩ }

/-! ### Helper lemmas -/

theorem findIndexOpt_eq_none_iff (p : α → Bool) (l : List α) :
    findIndexOpt p l = none ↔ ∀ a ∈ l, p a = false := by
  induction l with
  | nil => simp [findIndexOpt]
  | cons a t ih =>
    by_cases h : p a = true
    · simp [findIndexOpt, h]
    · simp only [Bool.not_eq_true] at h
      simp [findIndexOpt, h, Option.map_eq_none, ih]

theorem findIndexOpt_lt_length {p : α → Bool} {l : List α} {n : Nat}
    (h : findIndexOpt p l = some n) : n < l.length := by
  induction l generalizing n with
  | nil => simp [findIndexOpt] at h
  | cons a t ih =>
    rw [findIndexOpt] at h
    by_cases hpa : p a = true
    · rw [if_pos hpa] at h
      cases h
      simp
    · rw [if_neg hpa] at h
      cases hft : findIndexOpt p t with
      | none => rw [hft] at h; simp at h
      | some m =>
        rw [hft] at h
        simp only [Option.map_some', Option.some.injEq] at h
        subst h
        have := ih hft
        simp only [List.length_cons]
        omega

theorem jsSetEnabledAt_ofNat {σ : Type} (hosts : List (Item σ)) (n : Nat)
    (hn : n < hosts.length) (v : Bool) :
    jsSetEnabledAt hosts (n : Int) v =
      Except.ok (hosts.set n { hosts.get ⟨n, hn⟩ with enabled := v }) := by
  have h : (0 : Int) ≤ (n : Int) ∧ ((n : Int)).toNat < hosts.length := by
    constructor
    · exact Int.ofNat_nonneg n
    · simpa using hn
  simp only [jsSetEnabledAt, dif_pos h]
  congr 1

theorem jsSetEnabledAt_neg_one {σ : Type} (hosts : List (Item σ)) (v : Bool) :
    jsSetEnabledAt hosts (-1) v =
      Except.error "TypeError: cannot set property of undefined" := by
  have h : ¬ ((0 : Int) ≤ (-1 : Int) ∧ ((-1 : Int)).toNat < hosts.length) := by
    intro ⟨h0, _⟩
    omega
  simp [jsSetEnabledAt, dif_neg h]

theorem map_eq_self_of_fixed {l : List α} {f : α → α}
    (h : ∀ a ∈ l, f a = a) : l.map f = l := by
  induction l with
  | nil => rfl
  | cons a t ih =>
    simp only [List.map_cons]
    rw [h a (List.mem_cons_self a t), ih (fun x hx => h x (List.mem_cons_of_mem a hx))]
theorem findIndexOpt_cons_pos {p : α → Bool} {a : α} (t : List α)
    (h : p a = true) : findIndexOpt p (a :: t) = some 0 := by
  rw [findIndexOpt, if_pos h]

theorem findIndexOpt_cons_neg {p : α → Bool} {a : α} (t : List α)
    (h : ¬ p a = true) :
    findIndexOpt p (a :: t) = (findIndexOpt p t).map (· + 1) := by
  rw [findIndexOpt, if_neg h]

theorem lodashFindIndex_eq_of_some {p : α → Bool} {l : List α} {n : Nat}
    (h : findIndexOpt p l = some n) : lodashFindIndex p l = (n : Int) := by
  unfold lodashFindIndex
  rw [h]

theorem lodashFindIndex_eq_of_none {p : α → Bool} {l : List α}
    (h : findIndexOpt p l = none) : lodashFindIndex p l = -1 := by
  unfold lodashFindIndex
  rw [h]

theorem toggleSuccessHandler_eq_map {σ : Type} (hosts : List (Item σ))
    (rid : Int) (v : Bool)
    (hu : (hosts.map Item.id).Nodup)
    (hmem : ∃ h ∈ hosts, h.id = rid) :
    toggleSuccessHandler hosts ⟨rid, v⟩ =
      Except.ok (hosts.map
        (fun o => if o.id == rid then { o with enabled := v } else o)) := by
  induction hosts with
  | nil =>
    obtain ⟨x, hx, _⟩ := hmem
    exact absurd hx (List.not_mem_nil x)
  | cons a t ih =>
    have hu' : (t.map Item.id).Nodup := (List.nodup_cons.mp hu).2
    have hnotmem : a.id ∉ t.map Item.id := (List.nodup_cons.mp hu).1
    by_cases hpa : (a.id == rid) = true
    · have haid : a.id = rid := by simpa using hpa
      have hidx : lodashFindIndex (fun o => o.id == rid) (a :: t) = ((0 : Nat) : Int) :=
        lodashFindIndex_eq_of_some (findIndexOpt_cons_pos t hpa)
      have hlen : 0 < (a :: t).length := by simp
      have hset := jsSetEnabledAt_ofNat (a :: t) 0 hlen v
      have htailfix : ∀ o ∈ t, (fun o => if o.id == rid then { o with enabled := v } else o) o = o := by
        intro o ho
        have hne : o.id ≠ rid := by
          intro he
          exact hnotmem (haid ▸ he ▸ List.mem_map_of_mem Item.id ho)
        simp [hne]
      calc toggleSuccessHandler (a :: t) ⟨rid, v⟩
          = jsSetEnabledAt (a :: t) (lodashFindIndex (fun o => o.id == rid) (a :: t)) v := rfl
        _ = Except.ok ((a :: t).set 0 { (a :: t).get ⟨0, hlen⟩ with enabled := v }) := by
              rw [hidx, hset]
        _ = Except.ok ({ a with enabled := v } :: t) := rfl
        _ = Except.ok ((a :: t).map (fun o => if o.id == rid then { o with enabled := v } else o)) := by
              rw [List.map_cons, if_pos hpa, map_eq_self_of_fixed htailfix]
    · have hmem' : ∃ h ∈ t, h.id = rid := by
        obtain ⟨x, hx, hxid⟩ := hmem
        rcases List.mem_cons.mp hx with rfl | hxt
        · exact absurd (by simpa using hxid) hpa
        · exact ⟨x, hxt, hxid⟩
      obtain ⟨m, hft⟩ : ∃ m, findIndexOpt (fun o => o.id == rid) t = some m := by
        cases hq : findIndexOpt (fun o => o.id == rid) t with
        | none =>
          obtain ⟨x, hxt, hxid⟩ := hmem'
          have := (findIndexOpt_eq_none_iff _ t).mp hq x hxt
          simp [hxid] at this
        | some m => exact ⟨m, rfl⟩
      have hmlt : m < t.length := findIndexOpt_lt_length hft
      have hidx : lodashFindIndex (fun o => o.id == rid) (a :: t) = ((m + 1 : Nat) : Int) := by
        apply lodashFindIndex_eq_of_some
        rw [findIndexOpt_cons_neg t hpa, hft]
        rfl
      have hmlt' : m + 1 < (a :: t).length := by simp; omega
      have hset := jsSetEnabledAt_ofNat (a :: t) (m + 1) hmlt' v
      have hidxt : lodashFindIndex (fun o => o.id == rid) t = (m : Int) :=
        lodashFindIndex_eq_of_some hft
      have hsett := jsSetEnabledAt_ofNat t m hmlt v
      have iht := ih hu' hmem'
      have iht' : t.set m { t.get ⟨m, hmlt⟩ with enabled := v } =
          t.map (fun o => if o.id == rid then { o with enabled := v } else o) := by
        have : jsSetEnabledAt t (lodashFindIndex (fun o => o.id == rid) t) v =
            Except.ok (t.map (fun o => if o.id == rid then { o with enabled := v } else o)) := iht
        rw [hidxt, hsett] at this
        exact Except.ok.inj this
      calc toggleSuccessHandler (a :: t) ⟨rid, v⟩
          = jsSetEnabledAt (a :: t) (lodashFindIndex (fun o => o.id == rid) (a :: t)) v := rfl
        _ = Except.ok ((a :: t).set (m + 1) { (a :: t).get ⟨m + 1, hmlt'⟩ with enabled := v }) := by
              rw [hidx, hset]
        _ = Except.ok (a :: t.set m { t.get ⟨m, hmlt⟩ with enabled := v }) := rfl
        _ = Except.ok ((a :: t).map (fun o => if o.id == rid then { o with enabled := v } else o)) := by
              rw [iht', List.map_cons, if_neg hpa]

theorem length_filter_key_eq_one {σ : Type} (hosts : List (Item σ))
    (rid : Int) (hu : (hosts.map Item.id).Nodup)
    (hmem : ∃ h ∈ hosts, h.id = rid) :
    (hosts.filter (fun o => o.id == rid)).length = 1 := by
  induction hosts with
  | nil =>
    obtain ⟨x, hx, _⟩ := hmem
    exact absurd hx (List.not_mem_nil x)
  | cons a t ih =>
    have hu' : (t.map Item.id).Nodup := (List.nodup_cons.mp hu).2
    have hnotmem : a.id ∉ t.map Item.id := (List.nodup_cons.mp hu).1
    by_cases hpa : (a.id == rid) = true
    · have haid : a.id = rid := by simpa using hpa
      have htnil : t.filter (fun o => o.id == rid) = [] := by
        rw [List.filter_eq_nil_iff]
        intro o ho
        intro hcon
        have : o.id = rid := by simpa using hcon
        exact hnotmem (haid ▸ this ▸ List.mem_map_of_mem Item.id ho)
      simp only [List.filter_cons, hpa, if_true, htnil]
      rfl
    · have hmem' : ∃ h ∈ t, h.id = rid := by
        obtain ⟨x, hx, hxid⟩ := hmem
        rcases List.mem_cons.mp hx with rfl | hxt
        · exact absurd (by simpa using hxid) hpa
        · exact ⟨x, hxt, hxid⟩
      have hpa' : (a.id == rid) = false := by simpa using hpa
      simp only [List.filter_cons, hpa', Bool.false_eq_true, if_false]
      exact ih hu' hmem'

/-! ### Claim theorems -/

/-- Claim C1, counterexample.  The claim states that a toggle success
response whose id is no longer present in the current snapshot makes the
handler complete without error.  On the code this is false: `_.findIndex`
returns `-1` and `$scope.hosts[-1].enabled = ...` throws a `TypeError`.
Concrete input: toggle of the host with id 1, snapshot replaced by
`[item2]` (id 2) before resolution, success response `{id: 1, enabled:
false}`. -/
theorem stale_toggle_completes_without_error_false :
    ¬ ∃ out, (toggleHostEnabled item1).2 [item2] (Except.ok ⟨1, false⟩) =
      Except.ok out := by
  intro hcon
  obtain ⟨out, hout⟩ := hcon
  have heval : (toggleHostEnabled item1).2 [item2] (Except.ok ⟨1, false⟩) =
      Except.error "TypeError: cannot set property of undefined" := rfl
  rw [heval] at hout
  exact Except.noConfusion hout

/-- Claim C1, amended.  When a toggle success response carries an id that
matches no item of the current snapshot, the identifier lookup finds
nothing (index `-1`) and the patch attempt throws a `TypeError`; no item of
the snapshot is modified (the error branch carries no updated snapshot),
but the handler does not complete without error. -/
theorem stale_toggle_throws_snapshot_unchanged {σ : Type} (host : Item σ)
    (hosts : List (Item σ)) (res : ToggleResponseData)
    (habsent : ∀ x ∈ hosts, x.id ≠ res.id) :
    (toggleHostEnabled host).2 hosts (Except.ok res) =
      Except.error "TypeError: cannot set property of undefined" := by
  have hnone : findIndexOpt (fun o => o.id == res.id) hosts = none := by
    rw [findIndexOpt_eq_none_iff]
    intro a ha
    simpa using habsent a ha
  show jsSetEnabledAt hosts
    (lodashFindIndex (fun o => o.id == res.id) hosts) res.enabled = _
  rw [lodashFindIndex_eq_of_none hnone]
  exact jsSetEnabledAt_neg_one hosts res.enabled

/-- Claim C1, witness for the amended theorem: the hypothesis holds at the
concrete stale snapshot `[item2]` and response id 1, and the handler
throws there. -/
theorem stale_toggle_throws_witness :
    item2.id ≠ (1 : Int) ∧
    (toggleHostEnabled item1).2 [item2]
        (Except.ok ⟨1, false⟩) =
      Except.error "TypeError: cannot set property of undefined" :=
  ⟨by decide,
   stale_toggle_throws_snapshot_unchanged item1 [item2] ⟨1, false⟩ (by decide)⟩

/-- Claim C2, counterexample.  The claim states that `init` sets the total
row count from the page's `count` field; the code sets
`$scope.host_total_rows = hosts.results.length`.  Concrete input: a page
whose `results` hold one item but whose `count` is 5: the installed total
row count is 1, not 5. -/
theorem init_total_rows_from_count_false :
    (init (fun _ => ()) ⟨[item1], 5, none, none⟩ "dashboard" ⟨0⟩).1.host_total_rows ≠
      (⟨[item1], 5, none, none⟩ : Page Unit).count := by
  decide

/-- Claim C2, amended.  At initialization the controller installs
`results` (with job status attached to each item) as the Collection
Snapshot, sets the total row count from `results.length` — the number of
items on the pre-fetched page, not the page's `count` field — and passes
`count` only to the external `PageRangeSetup` collaborator. -/
theorem init_installs_results_total_rows_from_length {σ : Type}
    (r : Item σ → σ) (page : Page σ) (currentName : String)
    (currentParams : NavParams) :
    (init r page currentName currentParams).1.hosts =
        page.results.map (fun h => { h with status := some (r h) }) ∧
    (init r page currentName currentParams).1.host_total_rows =
        page.results.length ∧
    (init r page currentName currentParams).2.count = page.count :=
  ⟨rfl, rfl, rfl⟩

/-- Claim C3.  For a snapshot with unique identifiers and a toggle target
`i` in the snapshot, resolving the mutation with success value
`{id: i.id, enabled: v}` patches the snapshot to the list in which exactly
the identifier-matched item has its `enabled` field overwritten with `v`
and every other item is unchanged; exactly one item of the snapshot
matches the identifier. -/
theorem toggle_success_patches_exactly_one {σ : Type}
    (hosts : List (Item σ)) (i : Item σ) (v : Bool)
    (hu : (hosts.map Item.id).Nodup) (hi : i ∈ hosts) :
    (toggleHostEnabled i).2 hosts (Except.ok ⟨i.id, v⟩) =
        Except.ok (hosts.map
          (fun o => if o.id == i.id then { o with enabled := v } else o)) ∧
    (hosts.filter (fun o => o.id == i.id)).length = 1 := by
  constructor
  · show toggleSuccessHandler hosts ⟨i.id, v⟩ = _
    exact toggleSuccessHandler_eq_map hosts i.id v hu ⟨i, hi, rfl⟩
  · exact length_filter_key_eq_one hosts i.id hu ⟨i, hi, rfl⟩

/-- Claim C3, witness: on the concrete snapshot `[item1, item2]` with
distinct ids, toggling `item1` and resolving with `{id: 1, enabled:
false}` patches exactly the first item. -/
theorem toggle_success_patches_witness :
    (([item1, item2].map Item.id).Nodup) ∧
    item1 ∈ [item1, item2] ∧
    ((toggleHostEnabled item1).2 [item1, item2]
          (Except.ok ⟨item1.id, false⟩) =
        Except.ok ([item1, item2].map
          (fun o => if o.id == item1.id then { o with enabled := false }
            else o)) ∧
      (([item1, item2] : List (Item Unit)).filter
          (fun o => o.id == item1.id)).length = 1) :=
  ⟨by decide, by decide,
   toggle_success_patches_exactly_one [item1, item2] item1 false
     (by decide) (by decide)⟩

/-- Claim C7.  When the mutation promise rejects, no local state change
occurs — the settle continuation returns the snapshot exactly as it was —
and the controller issued exactly one mutation request (carrying the
negation of the item's current `enabled`), so there is no retry. -/
theorem toggle_failure_leaves_snapshot_unchanged {σ : Type} (host : Item σ)
    (hosts : List (Item σ)) (e : String) :
    (toggleHostEnabled host).2 hosts (Except.error e) = Except.ok hosts ∧
    (toggleHostEnabled host).1.length = 1 ∧
    (toggleHostEnabled host).1 = [⟨host.id, !host.enabled⟩] :=
  ⟨rfl, rfl, rfl⟩

/-- After the listener is unsubscribed, no sequence of further events
changes the listener state at all. -/
theorem runEvents_unsubscribed {s : ListenerState}
    (hs : s.subscribed = false) (es : List NavEvent) : runEvents s es = s := by
  induction es generalizing s with
  | nil => rfl
  | cons e es ih =>
    have hstep : stepEvent s e = s := by
      cases e with
      | stateChange t p => simp [stepEvent, hs]
      | destroy =>
        cases s
        simp_all [stepEvent]
    show runEvents (stepEvent s e) es = s
    rw [hstep]
    exact ih hs

/-- Claim C4.  After the `PostRefresh` handler runs, every resulting
item's `inventory_name` equals its own `summary_fields.inventory.name` and
its `inventory_id` equals its own `summary_fields.inventory.id`; and the
re-derivation is idempotent: running the handler twice yields the same
derived field values as running it once. -/
theorem postRefresh_derivation_idempotent {σ : Type} (r : Item σ → σ)
    (hosts : List (Item σ)) :
    (postRefreshHandler r hosts).map
        (fun it => (it.inventory_name, it.inventory_id)) =
      (postRefreshHandler r hosts).map
        (fun it => (some it.summary_fields.inventory.name,
                    some it.summary_fields.inventory.id)) ∧
    (postRefreshHandler r (postRefreshHandler r hosts)).map
        (fun it => (it.inventory_name, it.inventory_id)) =
      (postRefreshHandler r hosts).map
        (fun it => (it.inventory_name, it.inventory_id)) := by
  constructor
  · simp only [postRefreshHandler, setJobStatus, List.map_map]
    rfl
  · simp only [postRefreshHandler, setJobStatus, List.map_map]
    rfl

/-- Claim C5.  The `$stateChangeSuccess` listener never leaves the
edit-tracking state partially set: for every prior state and every event,
the resulting state either has both the row id and the list name set, or
has both removed entirely. -/
theorem stateChange_never_partial (s : EditTracking) (t : NavState)
    (p : NavParams) :
    (∃ rid : Int, ∃ nm : String,
        stateChangeHandler s t p = ⟨some rid, some nm⟩) ∨
    stateChangeHandler s t p = ⟨none, none⟩ := by
  unfold stateChangeHandler
  by_cases h : (t.name == "dashboardHosts.edit") = true
  · exact Or.inl ⟨p.id, "hosts", by rw [if_pos h]⟩
  · exact Or.inr (by rw [if_neg h])

/-- Claim C6.  The edit-tracking transitions are exactly: a
`$stateChangeSuccess` whose destination is `dashboardHosts.edit` moves any
prior state to `Editing("hosts", destination id)`; one to any other state
moves any prior state to the fully-cleared state; and at initialization
the marker is set to `Editing("hosts", current id)` exactly when the
current navigation state is already `dashboardHosts.edit`, and is absent
otherwise.  Both functions are fully characterized, so no other
transitions exist. -/
theorem editTracking_transitions_characterized (s : EditTracking)
    (t : NavState) (p : NavParams) (currentName : String) (q : NavParams) :
    stateChangeHandler s t p =
        (if t.name = "dashboardHosts.edit"
          then ⟨some p.id, some "hosts"⟩ else ⟨none, none⟩) ∧
    initEditTracking currentName q =
        (if currentName = "dashboardHosts.edit"
          then ⟨some q.id, some "hosts"⟩ else ⟨none, none⟩) := by
  constructor
  · by_cases h : t.name = "dashboardHosts.edit" <;>
      simp [stateChangeHandler, h]
  · by_cases h : currentName = "dashboardHosts.edit" <;>
      simp [initEditTracking, h]

/-- Claim C8.  Once the `$destroy` handler has run
`cleanUpStateChangeListener()` (deregistering the navigation listener),
no subsequent navigation-state-change event mutates the edit-tracking
state through that listener: for every event sequence, the edit marker
after the disposal plus any further events equals the edit marker at the
disposal. -/
theorem destroy_stops_edit_mutation (s : ListenerState)
    (pre post : List NavEvent) :
    (runEvents s (pre ++ NavEvent.destroy :: post)).edit =
      (runEvents s (pre ++ [NavEvent.destroy])).edit := by
  have h1 : pre ++ NavEvent.destroy :: post =
      (pre ++ [NavEvent.destroy]) ++ post := by simp
  rw [h1]
  have h2 : runEvents s ((pre ++ [NavEvent.destroy]) ++ post) =
      runEvents (runEvents s (pre ++ [NavEvent.destroy])) post := by
    unfold runEvents
    rw [List.foldl_append]
  rw [h2]
  have hsub : (runEvents s (pre ++ [NavEvent.destroy])).subscribed = false := by
    unfold runEvents
    rw [List.foldl_append]
    rfl
  rw [runEvents_unsubscribed hsub]

/-- Claim C9.  `editHost(id)` mutates no local controller state — the
snapshot, the edit-tracking marker, the total row count, the page size,
the search-active flag and the loading flag are all returned unchanged —
and its only effect is the navigation request to the edit view for `id`. -/
theorem editHost_mutates_no_local_state {σ : Type} (s : ControllerScope σ)
    (id : Int) :
    (editHost s id).1.hosts = s.hosts ∧
    (editHost s id).1.edit = s.edit ∧
    (editHost s id).1.host_total_rows = s.host_total_rows ∧
    (editHost s id).1.hostPageSize = s.hostPageSize ∧
    (editHost s id).1.host_active_search = s.host_active_search ∧
    (editHost s id).1.hostLoading = s.hostLoading ∧
    (editHost s id).2 = ⟨"dashboardHosts.edit", id⟩ :=
  ⟨rfl, rfl, rfl, rfl, rfl, rfl, rfl⟩

/-- Claim C10.  The `PostRefresh` handler preserves the snapshot's length
and order, and rewrites each item in place writing only the derived
`inventory_name` / `inventory_id` fields and the status metadata: every
other field — in particular `id`, `enabled` and `summary_fields` — is
carried over unchanged from the corresponding input item. -/
theorem postRefresh_writes_only_derived_fields {σ : Type} (r : Item σ → σ)
    (hosts : List (Item σ)) :
    (postRefreshHandler r hosts).length = hosts.length ∧
    ∀ k : Nat, ∃ s : Option σ,
      (postRefreshHandler r hosts)[k]? =
        (hosts[k]?).map (fun h =>
          { h with
            inventory_name := some h.summary_fields.inventory.name,
            inventory_id := some h.summary_fields.inventory.id,
            status := s }) := by
  constructor
  · simp [postRefreshHandler, setJobStatus]
  · intro k
    have hmap : (postRefreshHandler r hosts)[k]? =
        (hosts[k]?).map (fun h => SetStatus r (deriveInventoryFields h)) := by
      simp [postRefreshHandler, setJobStatus, List.getElem?_map,
        Option.map_map]
      rfl
    cases hk : hosts[k]? with
    | none =>
      refine ⟨none, ?_⟩
      rw [hmap, hk]
      rfl
    | some h =>
      refine ⟨some (r (deriveInventoryFields h)), ?_⟩
      rw [hmap, hk]
      rfl
